import Mathlib

/-!
Shallow embedding of the conversation-window and dispatch logic of
`src/cogs/ai.py` (class `LumiCog`), together with theorems about the
behaviour of that logic.

Modelling conventions:
* A Discord message turn `{"role": r, "content": c}` becomes the structure
  `Turn`.
* The per-user dictionary `self.conversation_history` becomes an
  association list `Hist` from user-id strings to lists of turns, so that
  key presence (`user_id in self.conversation_history`) is observable.
* Python `str.replace` (replace every occurrence) and `str.strip` are
  modelled character-list-wise by `replaceAll` and `stripChars` so that
  they evaluate by kernel reduction.
* The HTTP exchange performed by `call_groq_api` is modelled by the
  environment choosing an `HttpResult`: either the request raises
  (`exn`: timeout / connection error, covering `except Exception`), or it
  returns a status code together with the extraction
  `response.json()["choices"][0]["message"]["content"]`, which is `none`
  when the body is malformed (in the source that extraction raises inside
  the same `try`, so it lands in the `except` branch).
* The SQLite table `allowed_channels` becomes a list of `AllowedChannel`
  rows with primary key (guild_id, channel_id); `COUNT(*)` becomes
  `List.countP`.
* Wall-clock timestamps are passed in as an explicit `now` argument.
-/

/-- One conversation turn: `{"role": ..., "content": ...}`. -/
structure Turn where
  role : String
  content : String
deriving DecidableEq

/-- `self.max_history = 3` (src/cogs/ai.py line 17). -/
def max_history : Nat := 3

/-- `self.system_prompt` (src/cogs/ai.py lines 18-21). -/
def system_prompt : Turn :=
  { role := "system"
    content := "You are Lumi, an 18-year-old girl who enjoys talking with friends on Discord. You\x27re friendly, helpful, and a bit playful. You have many interests like music, art, games, and hanging out with friends. Keep your responses short, casual, and genuine like a real teenager would talk. Don\x27t mention that you\x27re an AI or that you\x27re powered by any model. Just be Lumi." }

/-- The trimming step `history[-max_history:]` guarded by
`len(history) > max_history` (src/cogs/ai.py lines 151-153 and 171-173). -/
def trimWindow (w : List Turn) : List Turn :=
  if w.length > max_history then w.drop (w.length - max_history) else w

/-- The last `n` entries of a list, in order (`l[-n:]` in Python). -/
def lastN {α : Type} (n : Nat) (l : List α) : List α :=
  l.drop (l.length - n)

/-- One `append` to a user's window followed by the trimming step, as
performed inline in `process_message` (src/cogs/ai.py lines 146-153 for the
user turn and 166-173 for the assistant turn). -/
def appendTurn (w : List Turn) (t : Turn) : List Turn :=
  trimWindow (w ++ [t])

/-- The window obtained from the empty window by a sequence of
`appendTurn` calls. -/
def windowAfter (ts : List Turn) : List Turn :=
  ts.foldl appendTurn []

/-- Fuel-driven worker for `replaceAll`; the fuel is the length of the
remaining input, which bounds the number of steps. -/
def replaceAllFuel (pat rep : List Char) : Nat → List Char → List Char
  | _, [] => []
  | 0, s => s
  | fuel+1, c :: rest =>
    if List.isPrefixOf pat (c :: rest) then
      rep ++ replaceAllFuel pat rep fuel ((c :: rest).drop pat.length)
    else
      c :: replaceAllFuel pat rep fuel rest

/-- Python `str.replace`: replace every (non-overlapping, leftmost-first)
occurrence of `pat` by `rep`. -/
def replaceAll (pat rep s : List Char) : List Char :=
  replaceAllFuel pat rep s.length s

/-- Python `str.strip`: drop whitespace from both ends. -/
def stripChars (s : List Char) : List Char :=
  ((s.dropWhile Char.isWhitespace).reverse.dropWhile Char.isWhitespace).reverse

/-- `message.content.replace(f'<@{self.bot.user.id}>', '').strip()`
(src/cogs/ai.py line 143). -/
def clean_content (botId content : String) : String :=
  String.mk (stripChars (replaceAll ("<@" ++ botId ++ ">").data [] content.data))

/-- The in-memory map `self.conversation_history`, keyed by user id. -/
abbrev Hist := List (String × List Turn)

/-- Dictionary lookup: `conversation_history[user_id]` / the membership
test `user_id in self.conversation_history`. -/
def histFind (h : Hist) (uid : String) : Option (List Turn) :=
  match h with
  | [] => none
  | (k, v) :: t => if k = uid then some v else histFind t uid

/-- Dictionary update: `conversation_history[user_id] = w` (replaces the
entry when the key is present, inserts it otherwise). -/
def histSet (h : Hist) (uid : String) (w : List Turn) : Hist :=
  match h with
  | [] => [(uid, w)]
  | (k, v) :: t => if k = uid then (k, w) :: t else (k, v) :: histSet t uid w

/-- Outcome of the HTTPS POST in `call_groq_api`, chosen by the
environment: `exn` means `requests.post` (or anything else inside the
`try`) raised; `response status content` means a response arrived with the
given status code, `content` being the extraction
`response.json()["choices"][0]["message"]["content"]` (`none` when the
body is malformed, in which case the extraction raises). -/
inductive HttpResult where
  | exn : HttpResult
  | response (status : Nat) (content : Option String) : HttpResult
deriving DecidableEq

/-- The fallback string returned on a non-200 status
(src/cogs/ai.py line 221). -/
def upstream_error_reply : String :=
  "Sorry, I couldn\x27t generate a response right now. Try again later?"

/-- The fallback string returned from the `except` branch
(src/cogs/ai.py line 224). -/
def network_error_reply : String :=
  "Network error occurred. Please try again later."

/-- `call_groq_api` (src/cogs/ai.py lines 192-224): on a 200 response with
a well-formed body, return the extracted content; on a non-200 response,
return `upstream_error_reply`; if the request raises — or the 200 body is
malformed, so the extraction raises — the `except` branch returns
`network_error_reply`. It never raises to its caller. -/
def call_groq_api (messages : List Turn) (r : HttpResult) : String :=
  match messages, r with
  | _, HttpResult.exn => network_error_reply
  | _, HttpResult.response status content =>
    if status = 200 then
      match content with
      | some text => text
      | none => network_error_reply
    else
      upstream_error_reply

/-- A completion-call outcome that the spec classifies as a failure:
transport failure / timeout, non-200 status, or malformed body. -/
def isFailure : HttpResult → Bool
  | HttpResult.exn => true
  | HttpResult.response status content => decide (status ≠ 200) || content.isNone

/-- One row inserted into `usage_stats` by `log_usage`
(src/cogs/ai.py lines 87-105); the autoincrement id is omitted. -/
structure UsageRecord where
  user_id : String
  guild_id : String
  channel_id : String
  timestamp : String
  message_length : Nat
  response_length : Nat
deriving DecidableEq

/-- Everything observable produced by one successful run of
`process_message`: the updated history map, the message list sent to the
completion endpoint, the reply text sent to the channel, and the usage row
logged. -/
structure ProcessResult where
  hist : Hist
  messagesSent : List Turn
  reply : String
  usage : UsageRecord
deriving DecidableEq

/-- `process_message` (src/cogs/ai.py lines 132-190), on the path where
sending the reply succeeds. Step by step: lazily create the user's window;
clean the content; append the user turn and trim; build
`[system_prompt] + history`; call the API (which never raises); append the
assistant turn and trim; log usage with `guild_id = "DM"` when the message
has no guild. -/
def process_message (botId : String) (hist : Hist) (author_id content : String)
    (guild : Option String) (channel_id : String) (api : HttpResult)
    (now : String) : ProcessResult :=
  let user_id := author_id
  let hist0 := if (histFind hist user_id).isNone then histSet hist user_id [] else hist
  let clean := clean_content botId content
  let w1 := (histFind hist0 user_id).getD [] ++ [{ role := "user", content := clean }]
  let hist1 := histSet hist0 user_id w1
  let w2 := trimWindow w1
  let hist2 := histSet hist1 user_id w2
  let messages := system_prompt :: w2
  let response := call_groq_api messages api
  let w3 := w2 ++ [{ role := "assistant", content := response }]
  let hist3 := histSet hist2 user_id w3
  let w4 := trimWindow w3
  let hist4 := histSet hist3 user_id w4
  let guild_id := match guild with
    | some g => g
    | none => "DM"
  { hist := hist4
    messagesSent := messages
    reply := response
    usage :=
      { user_id := user_id
        guild_id := guild_id
        channel_id := channel_id
        timestamp := now
        message_length := clean.length
        response_length := response.length } }

/-- One row of the `allowed_channels` table
(src/cogs/ai.py lines 33-41). -/
structure AllowedChannel where
  guild_id : String
  channel_id : String
  added_by : String
  added_at : String
deriving DecidableEq

/-- The `WHERE guild_id = ? AND channel_id = ?` predicate. -/
def matchesKey (g c : String) (r : AllowedChannel) : Bool :=
  r.guild_id == g && r.channel_id == c

/-- `is_channel_allowed` (src/cogs/ai.py lines 59-71):
`SELECT COUNT(*) ... > 0`. -/
def is_channel_allowed (store : List AllowedChannel) (guild_id channel_id : String) :
    Bool :=
  decide (0 < store.countP (matchesKey guild_id channel_id))

/-- The `INSERT OR REPLACE INTO allowed_channels` performed by
`add_channel` (src/cogs/ai.py lines 246-255): any row with the same
primary key is replaced. -/
def upsert_allowed_channel (store : List AllowedChannel) (row : AllowedChannel) :
    List AllowedChannel :=
  store.filter (fun r => ! matchesKey row.guild_id row.channel_id r) ++ [row]

/-- The `DELETE FROM allowed_channels WHERE ...` performed by
`remove_channel` (src/cogs/ai.py lines 282-285); the second component is
`cursor.rowcount`, the number of rows deleted. -/
def delete_allowed_channel (store : List AllowedChannel) (g c : String) :
    List AllowedChannel × Nat :=
  (store.filter (fun r => ! matchesKey g c r), store.countP (matchesKey g c))

/-- The dispatch decision of `on_message` (src/cogs/ai.py lines 111-130):
the bot ignores its own messages; a DM is processed whenever
`mentioned_in(message) or True` holds, i.e. always; a guild message is
processed iff the bot is mentioned or the channel is allow-listed. -/
def on_message_respond (store : List AllowedChannel) (authorIsBot isDM mentioned : Bool)
    (guild_id channel_id : String) : Bool :=
  if authorIsBot then false
  else if isDM then mentioned || true
  else mentioned || is_channel_allowed store guild_id channel_id

/-- `reset_history` (src/cogs/ai.py lines 381-392): if the target user's
id is a key of `conversation_history`, empty the window and send the
"reset performed" message; otherwise send the "nothing to reset" message.
`mention` is the target user's rendered mention. -/
def reset_history (hist : Hist) (target_user_id mention : String) : Hist × String :=
  if (histFind hist target_user_id).isSome then
    (histSet hist target_user_id [],
      "✅ Conversation history reset for " ++ mention ++ "!")
  else
    (hist, "No conversation history found for " ++ mention ++ ".")

/-- The trimmed window of `author` right after the user turn is appended in
`process_message` (src/cogs/ai.py lines 146-153): this is the history part
of the prompt sent to the API. -/
def promptWindow (botId : String) (hist : Hist) (author content : String) :
    List Turn :=
  trimWindow ((histFind hist author).getD []
    ++ [{ role := "user", content := clean_content botId content }])

/-- The window of `author` at the end of `process_message`
(src/cogs/ai.py lines 166-173): the assistant turn holding the API reply is
appended to `promptWindow` and the result is trimmed again. -/
def finalWindow (botId : String) (hist : Hist) (author content : String)
    (api : HttpResult) : List Turn :=
  trimWindow (promptWindow botId hist author content
    ++ [{ role := "assistant",
          content := call_groq_api
            (system_prompt :: promptWindow botId hist author content) api }])

/-! ### Helper lemmas about the window operations -/

theorem trimWindow_eq_lastN (w : List Turn) : trimWindow w = lastN max_history w := by
  unfold trimWindow lastN
  split
  · rfl
  · next h =>
    rw [Nat.sub_eq_zero_of_le (by omega), List.drop_zero]

theorem length_lastN {α : Type} (n : Nat) (l : List α) :
    (lastN n l).length = min n l.length := by
  simp only [lastN, List.length_drop]
  omega

theorem lastN_length_le {α : Type} (n : Nat) (l : List α) :
    (lastN n l).length ≤ n := by
  rw [length_lastN]; omega

theorem trimWindow_length_le (w : List Turn) :
    (trimWindow w).length ≤ max_history := by
  rw [trimWindow_eq_lastN]; exact lastN_length_le _ _

theorem mem_of_mem_trimWindow {t : Turn} {w : List Turn}
    (h : t ∈ trimWindow w) : t ∈ w := by
  rw [trimWindow_eq_lastN] at h
  exact List.mem_of_mem_drop h

theorem lastN_of_length_le {α : Type} {n : Nat} {l : List α}
    (h : l.length ≤ n) : lastN n l = l := by
  unfold lastN
  rw [Nat.sub_eq_zero_of_le h, List.drop_zero]

theorem lastN_append_singleton {α : Type} (n : Nat) (hn : 0 < n)
    (l : List α) (a : α) :
    lastN n (lastN n l ++ [a]) = lastN n (l ++ [a]) := by
  rcases le_or_lt l.length n with hle | hlt
  · rw [lastN_of_length_le hle]
  · have hm : (lastN n l).length = n := by rw [length_lastN]; omega
    have h2 : (1 : Nat) ≤ (lastN n l).length := by omega
    have hstep1 : lastN n (lastN n l ++ [a]) = (lastN n l).drop 1 ++ [a] := by
      show (lastN n l ++ [a]).drop ((lastN n l ++ [a]).length - n) = _
      rw [List.length_append, hm]
      have h1 : n + [a].length - n = 1 := by
        simp only [List.length_cons, List.length_nil]; omega
      rw [h1, List.drop_append_of_le_length h2]
    have hstep2 : (lastN n l).drop 1 = l.drop (l.length - n + 1) := by
      show (l.drop (l.length - n)).drop 1 = _
      rw [List.drop_drop]
    have hstep3 : lastN n (l ++ [a]) = l.drop (l.length - n + 1) ++ [a] := by
      show (l ++ [a]).drop ((l ++ [a]).length - n) = _
      have he : (l ++ [a]).length - n = l.length - n + 1 := by
        rw [List.length_append]
        simp only [List.length_cons, List.length_nil]; omega
      rw [he, List.drop_append_of_le_length (by omega)]
    rw [hstep1, hstep2, hstep3]

theorem windowAfter_eq_lastN (ts : List Turn) :
    windowAfter ts = lastN max_history ts := by
  induction ts using List.reverseRecOn with
  | nil => rfl
  | append_singleton xs x ih =>
    unfold windowAfter at ih ⊢
    rw [List.foldl_append]
    simp only [List.foldl_cons, List.foldl_nil]
    rw [ih]
    unfold appendTurn
    rw [trimWindow_eq_lastN]
    exact lastN_append_singleton max_history (by decide) xs x

/-! ### Helper lemmas about the history map -/

theorem histFind_histSet_self (h : Hist) (uid : String) (w : List Turn) :
    histFind (histSet h uid w) uid = some w := by
  induction h with
  | nil => simp [histSet, histFind]
  | cons p t ih =>
    obtain ⟨k, v⟩ := p
    by_cases hk : k = uid
    · simp [histSet, histFind, hk]
    · simp [histSet, histFind, hk, ih]

theorem histFind_histSet_ne (h : Hist) (uid uid' : String) (w : List Turn)
    (hne : uid' ≠ uid) :
    histFind (histSet h uid w) uid' = histFind h uid' := by
  have hne' : uid ≠ uid' := fun he => hne he.symm
  induction h with
  | nil => simp [histSet, histFind, hne']
  | cons p t ih =>
    obtain ⟨k, v⟩ := p
    by_cases hk : k = uid
    · subst hk
      simp [histSet, histFind, hne']
    · simp [histSet, histFind, hk, ih]

theorem histSet_histSet (h : Hist) (uid : String) (w w' : List Turn) :
    histSet (histSet h uid w) uid w' = histSet h uid w' := by
  induction h with
  | nil => simp [histSet]
  | cons p t ih =>
    obtain ⟨k, v⟩ := p
    by_cases hk : k = uid
    · simp [histSet, hk]
    · simp [histSet, hk, ih]

/-! ### Characterization of one `process_message` run -/

/-- Closed form of `process_message`: the lazy window creation and the four
successive dictionary writes collapse to a single write of the final
window. -/
theorem process_message_eq (botId : String) (hist : Hist) (author content : String)
    (guild : Option String) (ch : String) (api : HttpResult) (now : String) :
    process_message botId hist author content guild ch api now =
      { hist := histSet hist author
          (trimWindow
            (trimWindow ((histFind hist author).getD []
                ++ [{ role := "user", content := clean_content botId content }])
              ++ [{ role := "assistant",
                    content := call_groq_api
                      (system_prompt ::
                        trimWindow ((histFind hist author).getD []
                          ++ [{ role := "user",
                                content := clean_content botId content }])) api }]))
        messagesSent := system_prompt ::
          trimWindow ((histFind hist author).getD []
            ++ [{ role := "user", content := clean_content botId content }])
        reply := call_groq_api
          (system_prompt ::
            trimWindow ((histFind hist author).getD []
              ++ [{ role := "user", content := clean_content botId content }])) api
        usage :=
          { user_id := author
            guild_id := guild.getD "DM"
            channel_id := ch
            timestamp := now
            message_length := (clean_content botId content).length
            response_length := (call_groq_api
              (system_prompt ::
                trimWindow ((histFind hist author).getD []
                  ++ [{ role := "user",
                        content := clean_content botId content }])) api).length } } := by
  cases hfind : histFind hist author with
  | none =>
    simp [process_message, hfind, histFind_histSet_self, histSet_histSet]
    cases guild <;> rfl
  | some w =>
    simp [process_message, hfind, histSet_histSet]
    cases guild <;> rfl

/-- Every failing `HttpResult` makes `call_groq_api` return one of the two
fixed fallback strings. -/
theorem call_groq_api_failure_cases (messages : List Turn) (r : HttpResult)
    (h : isFailure r = true) :
    call_groq_api messages r = upstream_error_reply ∨
    call_groq_api messages r = network_error_reply := by
  cases r with
  | exn => right; rfl
  | response status content =>
    by_cases hs : status = 200
    · cases content with
      | some text =>
        exfalso
        simp [isFailure, hs] at h
      | none =>
        right
        simp [call_groq_api, hs]
    · left
      simp [call_groq_api, hs]

/-- The two messages `reset_history` can send differ, whatever the
rendered mention is (their fixed parts have different lengths). -/
theorem reset_messages_distinct (m : String) :
    ("✅ Conversation history reset for " ++ m ++ "!")
      ≠ ("No conversation history found for " ++ m ++ ".") := by
  intro h
  have h2 := congrArg String.length h
  rw [String.length_append, String.length_append, String.length_append,
    String.length_append] at h2
  have e1 : ("✅ Conversation history reset for " : String).length = 33 := rfl
  have e2 : ("No conversation history found for " : String).length = 34 := rfl
  have e3 : ("!" : String).length = 1 := rfl
  have e4 : ("." : String).length = 1 := rfl
  omega

/-- The history map produced by `process_message`: a single write of the
final window. -/
theorem process_message_hist_eq (botId : String) (hist : Hist)
    (author content : String) (guild : Option String) (ch : String)
    (api : HttpResult) (now : String) :
    (process_message botId hist author content guild ch api now).hist
      = histSet hist author (finalWindow botId hist author content api) := by
  rw [process_message_eq]
  rfl

/-- The message list sent to the completion endpoint by
`process_message`. -/
theorem process_message_messages_eq (botId : String) (hist : Hist)
    (author content : String) (guild : Option String) (ch : String)
    (api : HttpResult) (now : String) :
    (process_message botId hist author content guild ch api now).messagesSent
      = system_prompt :: promptWindow botId hist author content := by
  rw [process_message_eq]
  rfl

/-- The reply text produced by `process_message`. -/
theorem process_message_reply_eq (botId : String) (hist : Hist)
    (author content : String) (guild : Option String) (ch : String)
    (api : HttpResult) (now : String) :
    (process_message botId hist author content guild ch api now).reply
      = call_groq_api (system_prompt :: promptWindow botId hist author content) api := by
  rw [process_message_eq]
  rfl

/-- The usage row logged by `process_message`. -/
theorem process_message_usage_eq (botId : String) (hist : Hist)
    (author content : String) (guild : Option String) (ch : String)
    (api : HttpResult) (now : String) :
    (process_message botId hist author content guild ch api now).usage
      = { user_id := author
          guild_id := guild.getD "DM"
          channel_id := ch
          timestamp := now
          message_length := (clean_content botId content).length
          response_length := (call_groq_api
            (system_prompt :: promptWindow botId hist author content) api).length } := by
  rw [process_message_eq]
  rfl

theorem promptWindow_length_le (botId : String) (hist : Hist)
    (author content : String) :
    (promptWindow botId hist author content).length ≤ max_history :=
  trimWindow_length_le _

theorem finalWindow_length_le (botId : String) (hist : Hist)
    (author content : String) (api : HttpResult) :
    (finalWindow botId hist author content api).length ≤ max_history :=
  trimWindow_length_le _

/-- Appending one non-system turn and trimming preserves the absence of
system-role turns. -/
theorem roles_preserved {w : List Turn} {t0 : Turn}
    (hw : ∀ t ∈ w, t.role ≠ "system") (h0 : t0.role ≠ "system") :
    ∀ t ∈ trimWindow (w ++ [t0]), t.role ≠ "system" := by
  intro t ht
  rcases List.mem_append.mp (mem_of_mem_trimWindow ht) with h1 | h2
  · exact hw t h1
  · rw [List.mem_singleton] at h2
    subst h2
    exact h0

/-- If no stored window of `hist` holds a system-role turn, neither does
the window `(histFind hist author).getD []` read by `process_message`. -/
theorem getD_no_system (hist : Hist) (author : String)
    (hsys : ∀ uid w, histFind hist uid = some w → ∀ t ∈ w, t.role ≠ "system") :
    ∀ t ∈ (histFind hist author).getD [], t.role ≠ "system" := by
  cases hf : histFind hist author with
  | none => simp
  | some w => exact hsys author w hf

theorem promptWindow_no_system (botId : String) (hist : Hist)
    (author content : String)
    (hsys : ∀ uid w, histFind hist uid = some w → ∀ t ∈ w, t.role ≠ "system") :
    ∀ t ∈ promptWindow botId hist author content, t.role ≠ "system" :=
  roles_preserved (getD_no_system hist author hsys) (by simp)

theorem finalWindow_no_system (botId : String) (hist : Hist)
    (author content : String) (api : HttpResult)
    (hsys : ∀ uid w, histFind hist uid = some w → ∀ t ∈ w, t.role ≠ "system") :
    ∀ t ∈ finalWindow botId hist author content api, t.role ≠ "system" :=
  roles_preserved (promptWindow_no_system botId hist author content hsys) (by simp)

/-! ### Claim theorems -/

/-- C1, counterexample: after four `append` calls the claim as stated fails —
the surviving entries are NOT the most-recent `min(total, 2*max_history)`
(= 4) entries; with `max_history = 3` the oldest of the four has already
been evicted. -/
theorem window_fifo_two_max_history_cex :
    ¬ (windowAfter
        [{ role := "user", content := "m1" }, { role := "user", content := "m2" },
         { role := "user", content := "m3" }, { role := "user", content := "m4" }]
      = lastN (2 * max_history)
        [{ role := "user", content := "m1" }, { role := "user", content := "m2" },
         { role := "user", content := "m3" }, { role := "user", content := "m4" }]) := by
  decide

/-- C1, amended: for every sequence of `append` calls to one user's window,
after each call the window length is at most `max_history` (= 3, counted in
individual turn entries — not `2*max_history`), and the surviving entries
are exactly the most-recent `min(total appended, max_history)` entries in
their original relative order (FIFO eviction of the oldest). `lastN n ts`
is the list of the last `n` appended entries in order. -/
theorem window_fifo_max_history (ts : List Turn) :
    (windowAfter ts).length ≤ max_history
    ∧ windowAfter ts = lastN max_history ts
    ∧ (lastN max_history ts).length = min ts.length max_history := by
  refine ⟨?_, windowAfter_eq_lastN ts, ?_⟩
  · rw [windowAfter_eq_lastN]
    exact lastN_length_le _ _
  · rw [length_lastN]
    omega

/-- C3, counterexample: two failing completion calls do NOT receive the same
substituted text — a non-200 upstream status yields one fixed string while a
transport failure yields a different fixed string. -/
theorem single_fallback_string_cex :
    isFailure (HttpResult.response 500 (some "ignored")) = true
    ∧ isFailure HttpResult.exn = true
    ∧ call_groq_api [] (HttpResult.response 500 (some "ignored"))
        ≠ call_groq_api [] HttpResult.exn := by
  decide

/-- C3, amended: every completion-call failure is converted to one of TWO
fixed user-facing apology strings, determined by the failure kind: a
response with a non-200 status yields `upstream_error_reply`, while a
transport failure/timeout or a malformed response body (extraction raises)
yields `network_error_reply`; no raw error is ever returned to the user. -/
theorem fallback_two_fixed_strings (messages : List Turn) (r : HttpResult)
    (hfail : isFailure r = true) :
    call_groq_api messages r
      = (match r with
         | HttpResult.exn => network_error_reply
         | HttpResult.response status _ =>
           if status = 200 then network_error_reply else upstream_error_reply) := by
  cases r with
  | exn => rfl
  | response status content =>
    by_cases hs : status = 200
    · cases content with
      | some text =>
        exfalso
        simp [isFailure, hs] at hfail
      | none =>
        simp [call_groq_api, hs]
    · simp [call_groq_api, hs]

/-- C3, witness: the amended theorem applied to a concrete transport
failure. -/
theorem fallback_two_fixed_strings_witness :
    isFailure HttpResult.exn = true
    ∧ call_groq_api [] HttpResult.exn
        = (match HttpResult.exn with
           | HttpResult.exn => network_error_reply
           | HttpResult.response status _ =>
             if status = 200 then network_error_reply else upstream_error_reply) :=
  ⟨by decide, fallback_two_fixed_strings [] HttpResult.exn (by decide)⟩

/-- C4: the dispatch decision of `on_message` for a message not authored by
the bot satisfies the truth table — a direct message always triggers
processing whatever the mention flag and the allow list say, and a guild
message triggers processing exactly when the bot is mentioned or the
channel is allow-listed (otherwise it is ignored). -/
theorem dispatch_truth_table (store : List AllowedChannel) (mentioned : Bool)
    (g c : String) :
    on_message_respond store false true mentioned g c = true
    ∧ on_message_respond store false false mentioned g c
        = (mentioned || is_channel_allowed store g c) := by
  constructor
  · simp [on_message_respond]
  · simp [on_message_respond]

/-- C2, counterexample: with empty prior history, user text "hi" and a
transport failure, the user's window after handling the message is NOT just
the user turn appended pre-call — the failure path appends an assistant
turn as well (holding the fallback text). -/
theorem failure_appends_fallback_cex :
    isFailure HttpResult.exn = true
    ∧ histFind (process_message "99" [] "u1" "hi" none "chan" HttpResult.exn "t0").hist "u1"
        ≠ some [{ role := "user", content := "hi" }] := by
  decide

/-- C2, amended: on every completion-call failure, `call_groq_api` returns
the fixed fallback string instead of raising, so `process_message`
continues on its ordinary path: the window after handling holds the
pre-call window (`promptWindow`, user turn already appended) PLUS one
assistant turn whose content is the substituted fallback — i.e. the
fallback/apology text IS appended to the window as an assistant turn, and
that content is one of the two fixed fallback strings. -/
theorem failure_appends_fallback (botId : String) (hist : Hist)
    (author content : String) (guild : Option String) (ch : String)
    (api : HttpResult) (now : String) (hfail : isFailure api = true) :
    histFind (process_message botId hist author content guild ch api now).hist author
      = some (trimWindow (promptWindow botId hist author content
          ++ [{ role := "assistant",
                content := call_groq_api
                  (system_prompt :: promptWindow botId hist author content) api }]))
    ∧ (call_groq_api (system_prompt :: promptWindow botId hist author content) api
          = upstream_error_reply
       ∨ call_groq_api (system_prompt :: promptWindow botId hist author content) api
          = network_error_reply) := by
  constructor
  · rw [process_message_hist_eq]
    exact histFind_histSet_self hist author _
  · exact call_groq_api_failure_cases _ api hfail

/-- C2, witness: the amended theorem applied to a concrete transport
failure with empty prior history. -/
theorem failure_appends_fallback_witness :
    isFailure HttpResult.exn = true
    ∧ (histFind (process_message "99" [] "u1" "hi" none "chan" HttpResult.exn "t0").hist "u1"
        = some (trimWindow (promptWindow "99" [] "u1" "hi"
            ++ [{ role := "assistant",
                  content := call_groq_api
                    (system_prompt :: promptWindow "99" [] "u1" "hi") HttpResult.exn }]))
      ∧ (call_groq_api (system_prompt :: promptWindow "99" [] "u1" "hi") HttpResult.exn
            = upstream_error_reply
         ∨ call_groq_api (system_prompt :: promptWindow "99" [] "u1" "hi") HttpResult.exn
            = network_error_reply)) :=
  ⟨by decide,
   failure_appends_fallback "99" [] "u1" "hi" none "chan" HttpResult.exn "t0" (by decide)⟩

/-- C5: for every user and incoming text, the message list sent to the
completion endpoint has the fixed system turn as its first element, its
remaining elements are exactly the user's trimmed window after exactly one
user-role turn holding the mention-stripped, whitespace-trimmed text has
been appended, and — since windows never store a system turn — exactly one
system-role turn appears per request, a property preserved by the
handling. -/
theorem prompt_shape_single_system_turn (botId : String) (hist : Hist)
    (author content : String) (guild : Option String) (ch : String)
    (api : HttpResult) (now : String)
    (hsys : ∀ uid w, histFind hist uid = some w → ∀ t ∈ w, t.role ≠ "system") :
    (process_message botId hist author content guild ch api now).messagesSent
      = system_prompt
        :: trimWindow ((histFind hist author).getD []
             ++ [{ role := "user", content := clean_content botId content }])
    ∧ ((process_message botId hist author content guild ch api now).messagesSent.countP
          (fun t => t.role == "system")) = 1
    ∧ (∀ uid w,
        histFind (process_message botId hist author content guild ch api now).hist uid
          = some w → ∀ t ∈ w, t.role ≠ "system") := by
  refine ⟨process_message_messages_eq botId hist author content guild ch api now, ?_, ?_⟩
  · rw [process_message_messages_eq]
    rw [List.countP_cons]
    have hz : (promptWindow botId hist author content).countP
        (fun t => t.role == "system") = 0 := by
      rw [List.countP_eq_zero]
      intro t ht hbeq
      exact promptWindow_no_system botId hist author content hsys t ht
        (by simpa using hbeq)
    rw [hz]
    rfl
  · intro uid w hw
    rw [process_message_hist_eq] at hw
    by_cases huid : uid = author
    · subst huid
      rw [histFind_histSet_self] at hw
      obtain rfl := Option.some.inj hw
      exact finalWindow_no_system botId hist uid content api hsys
    · rw [histFind_histSet_ne hist author uid _ huid] at hw
      exact hsys uid w hw

/-- C5, witness: the theorem applied to a concrete first-ever message (the
no-system-turn hypothesis holds vacuously for the empty history map). -/
theorem prompt_shape_single_system_turn_witness :
    (∀ uid w, histFind ([] : Hist) uid = some w → ∀ t ∈ w, t.role ≠ "system")
    ∧ ((process_message "99" [] "u1" " hello <@99> " none "chan"
          (HttpResult.response 200 (some "hey")) "t0").messagesSent
        = system_prompt
          :: trimWindow ((histFind ([] : Hist) "u1").getD []
               ++ [{ role := "user", content := clean_content "99" " hello <@99> " }])
      ∧ ((process_message "99" [] "u1" " hello <@99> " none "chan"
            (HttpResult.response 200 (some "hey")) "t0").messagesSent.countP
            (fun t => t.role == "system")) = 1
      ∧ (∀ uid w,
          histFind (process_message "99" [] "u1" " hello <@99> " none "chan"
              (HttpResult.response 200 (some "hey")) "t0").hist uid
            = some w → ∀ t ∈ w, t.role ≠ "system")) := by
  constructor
  · intro uid w hw
    simp [histFind] at hw
  · exact prompt_shape_single_system_turn "99" [] "u1" " hello <@99> " none "chan"
      (HttpResult.response 200 (some "hey")) "t0"
      (by intro uid w hw; simp [histFind] at hw)

/-- C6: `reset` on a user with no prior window reports the distinct
"nothing to reset" outcome and leaves the map unchanged; `reset` on a user
whose window holds at least one turn empties the window and reports the
"reset performed" outcome (a different string from the "nothing to reset"
one), and a subsequent lookup of that user's window returns the empty
sequence. -/
theorem reset_semantics (hist : Hist) (uid mention : String) :
    (histFind hist uid = none →
        reset_history hist uid mention
          = (hist, "No conversation history found for " ++ mention ++ "."))
    ∧ (∀ w, histFind hist uid = some w → 0 < w.length →
        (reset_history hist uid mention).2
            = "✅ Conversation history reset for " ++ mention ++ "!"
        ∧ histFind (reset_history hist uid mention).1 uid = some []
        ∧ (reset_history hist uid mention).2
            ≠ "No conversation history found for " ++ mention ++ ".") := by
  constructor
  · intro h
    simp [reset_history, h]
  · intro w hw _hlen
    have hs : (histFind hist uid).isSome = true := by rw [hw]; rfl
    have hr : reset_history hist uid mention
        = (histSet hist uid [],
           "✅ Conversation history reset for " ++ mention ++ "!") := by
      simp [reset_history, hs]
    refine ⟨by rw [hr], ?_, ?_⟩
    · rw [hr]
      exact histFind_histSet_self hist uid []
    · rw [hr]
      exact reset_messages_distinct mention

/-- C6, witness: the theorem applied to a user with no window and to a user
whose window holds one turn. -/
theorem reset_semantics_witness :
    (histFind ([] : Hist) "7" = none
      ∧ reset_history [] "7" "@u"
          = (([] : Hist), "No conversation history found for " ++ "@u" ++ "."))
    ∧ (histFind [("7", [{ role := "user", content := "hi" }])] "7"
          = some [{ role := "user", content := "hi" }]
      ∧ 0 < ([{ role := "user", content := "hi" }] : List Turn).length
      ∧ (reset_history [("7", [{ role := "user", content := "hi" }])] "7" "@u").2
          = "✅ Conversation history reset for " ++ "@u" ++ "!"
      ∧ histFind (reset_history [("7", [{ role := "user", content := "hi" }])] "7" "@u").1 "7"
          = some []) := by
  constructor
  · exact ⟨by decide, (reset_semantics [] "7" "@u").1 (by decide)⟩
  · have h := (reset_semantics [("7", [{ role := "user", content := "hi" }])] "7" "@u").2
      [{ role := "user", content := "hi" }] (by decide) (by decide)
    exact ⟨by decide, by decide, h.1, h.2.1⟩

/-- C7: after `add_channel` upserts a (guild, channel) row,
`is_channel_allowed` on that pair returns true; after `remove_channel`
deletes the pair, `is_channel_allowed` returns false. -/
theorem allowed_channel_add_remove (store : List AllowedChannel)
    (g c addedBy addedAt : String) :
    is_channel_allowed
        (upsert_allowed_channel store
          { guild_id := g, channel_id := c, added_by := addedBy, added_at := addedAt })
        g c = true
    ∧ is_channel_allowed (delete_allowed_channel store g c).1 g c = false := by
  constructor
  · have hone : matchesKey g c
        { guild_id := g, channel_id := c, added_by := addedBy, added_at := addedAt }
          = true := by
      simp [matchesKey]
    simp [is_channel_allowed, upsert_allowed_channel, List.countP_append,
      List.countP_cons, hone]
  · have hz : (store.filter (fun r => ! matchesKey g c r)).countP (matchesKey g c)
        = 0 := by
      rw [List.countP_eq_zero]
      intro a ha hpa
      have hf := (List.mem_filter.mp ha).2
      rw [hpa] at hf
      simp at hf
    simp [is_channel_allowed, delete_allowed_channel, hz]

/-- C8: `max_history` is 3, and after every complete handling of an inbound
message each user's window holds at most `max_history` = 3 individual turn
entries (assuming every window satisfied the bound beforehand, as all
reachable states do) — strictly smaller than the `2 × max_history` bound
the spec text suggests — so the prompt carries at most 3 history turns plus
the system turn. -/
theorem window_bound_after_process (botId : String) (hist : Hist)
    (author content : String) (guild : Option String) (ch : String)
    (api : HttpResult) (now : String)
    (hbound : ∀ uid w, histFind hist uid = some w → w.length ≤ max_history) :
    max_history = 3
    ∧ (∀ uid w,
        histFind (process_message botId hist author content guild ch api now).hist uid
          = some w → w.length ≤ max_history)
    ∧ (process_message botId hist author content guild ch api now).messagesSent.length
        ≤ max_history + 1 := by
  refine ⟨rfl, ?_, ?_⟩
  · intro uid w hw
    rw [process_message_hist_eq] at hw
    by_cases huid : uid = author
    · subst huid
      rw [histFind_histSet_self] at hw
      obtain rfl := Option.some.inj hw
      exact finalWindow_length_le botId hist uid content api
    · rw [histFind_histSet_ne hist author uid _ huid] at hw
      exact hbound uid w hw
  · rw [process_message_messages_eq]
    have := promptWindow_length_le botId hist author content
    simp only [List.length_cons]
    omega

/-- C8, witness: the theorem applied to a concrete message on an empty
history map (which trivially satisfies the bound). -/
theorem window_bound_after_process_witness :
    (∀ uid w, histFind ([] : Hist) uid = some w → w.length ≤ max_history)
    ∧ (max_history = 3
      ∧ (∀ uid w,
          histFind (process_message "99" [] "u1" "hi" (some "g1") "chan"
              (HttpResult.response 200 (some "hey")) "t0").hist uid
            = some w → w.length ≤ max_history)
      ∧ (process_message "99" [] "u1" "hi" (some "g1") "chan"
            (HttpResult.response 200 (some "hey")) "t0").messagesSent.length
          ≤ max_history + 1) := by
  constructor
  · intro uid w hw
    simp [histFind] at hw
  · exact window_bound_after_process "99" [] "u1" "hi" (some "g1") "chan"
      (HttpResult.response 200 (some "hey")) "t0"
      (by intro uid w hw; simp [histFind] at hw)

/-- C9: the outcome reported by `reset` depends only on whether the user id
is a key of the history map, not on the window's turn count — a user whose
window exists but is empty (for example after a previous reset) receives
the "reset performed" outcome, not "nothing to reset". -/
theorem reset_empty_window_performed (hist : Hist) (uid mention : String)
    (h : histFind hist uid = some []) :
    reset_history hist uid mention
      = (histSet hist uid [],
         "✅ Conversation history reset for " ++ mention ++ "!") := by
  have hs : (histFind hist uid).isSome = true := by rw [h]; rfl
  simp [reset_history, hs]

/-- C9, witness: the theorem applied to a user whose window exists and is
empty. -/
theorem reset_empty_window_performed_witness :
    histFind [("u1", ([] : List Turn))] "u1" = some []
    ∧ reset_history [("u1", ([] : List Turn))] "u1" "@m"
        = (histSet [("u1", ([] : List Turn))] "u1" [],
           "✅ Conversation history reset for " ++ "@m" ++ "!") :=
  ⟨by decide, reset_empty_window_performed [("u1", [])] "u1" "@m" (by decide)⟩

/-- C10: for every direct message (no guild), the usage record appended to
the store carries the literal string "DM" as its guild id, and records the
channel id, the length of the cleaned input and the length of the response
exactly as for guild messages. -/
theorem dm_usage_record (botId : String) (hist : Hist)
    (author content ch : String) (api : HttpResult) (now : String) :
    (process_message botId hist author content none ch api now).usage
      = { user_id := author
          guild_id := "DM"
          channel_id := ch
          timestamp := now
          message_length := (clean_content botId content).length
          response_length :=
            (process_message botId hist author content none ch api now).reply.length } := by
  rw [process_message_usage_eq, process_message_reply_eq]
  rfl
